import Mathlib

/-!
Verification development for the time-range utility module
`packages/grafana-data/src/datetime/rangeutil.ts`.

Strings are embedded as `List Char` (`Str`); JavaScript numbers as `ℚ`
(the functions in scope only perform exact decimal arithmetic on their
inputs); JavaScript exceptions as `Except Str`.  `Math.floor` is `Int.floor`,
the JS `%` operator is the truncated remainder, `Number.prototype.toFixed()`
rounds to the nearest integer with ties toward positive infinity, and moment's
`unix()` is `Math.floor(valueOf() / 1000)`.
-/

namespace Rangeutil

/-- Strings of the embedded program: lists of characters. -/
abbrev Str := List Char

/-- Convenience conversion from Lean string literals. -/
def str (s : String) : Str := s.data

/-- JS whitespace characters relevant to `Number`/`parseInt` trimming. -/
def isJsSpace (c : Char) : Bool := c = ' ' || c = '\t' || c = '\n' || c = '\r'

/-- ASCII decimal digit test (JS `\d`). -/
def isDigitCh (c : Char) : Bool := c.isDigit

/-- JS `\w` word character: `[A-Za-z0-9_]`. -/
def isWordCh (c : Char) : Bool := c.isAlphanum || c = '_'

/-- Numeric value of a non-empty all-digit string (as read by `parseInt`). -/
def digitsToNat (l : Str) : Nat := l.foldl (fun a c => 10 * a + (c.toNat - 48)) 0

/-- Decimal rendering of an integer, as JS number-to-string on integers. -/
def intToStr (i : Int) : Str := (toString i).data

/-- Decimal rendering of a natural number. -/
def natToStr (n : Nat) : Str := (toString n).data

/-- Substring test: JS `s.indexOf(pat) !== -1`. -/
def occurs (pat : Str) : Str → Bool
  | [] => pat.isPrefixOf ([] : Str)
  | c :: rest => pat.isPrefixOf (c :: rest) || occurs pat rest

/-- JS `s.indexOf(pat) === 0`. -/
def listStartsWith (pat s : Str) : Bool := pat.isPrefixOf s

/-- TimeOption record from `grafana-data` (`section` is `sectionNum` here;
a missing `invalid` field is `false`, a missing `section` is `none`). -/
structure TimeOption where
  from_ : Str
  to_ : Str
  display : Str
  sectionNum : Option Nat := none
  invalid : Bool := false
deriving DecidableEq, Repr

/-- Helper to build a preset entry (no `section`, no `invalid` field). -/
def mkOpt (f t d : String) : TimeOption := ⟨str f, str t, str d, none, false⟩

/-- The `spans` table: unit character to display name.  No entry carries a
`section` field in the source, so the embedded table holds displays only. -/
def spans (u : Char) : Option Str :=
  if u = 's' then some (str "segundo")
  else if u = 'm' then some (str "minuto")
  else if u = 'h' then some (str "hora")
  else if u = 'd' then some (str "dia")
  else if u = 'w' then some (str "semana")
  else if u = 'M' then some (str "mês")
  else if u = 'y' then some (str "ano")
  else none

/-- The visible preset catalog `rangeOptions`. -/
def rangeOptions : List TimeOption :=
  [ mkOpt "now/d" "now/d" "Hoje",
    mkOpt "now/d" "now" "Hoje até agora",
    mkOpt "now/w" "now/w" "Esta semana",
    mkOpt "now/w" "now" "Esta semana até agora",
    mkOpt "now/M" "now/M" "Este mês",
    mkOpt "now/M" "now" "Este mês até agora",
    mkOpt "now/y" "now/y" "Este ano",
    mkOpt "now/y" "now" "Este ano até agora",
    mkOpt "now-1d/d" "now-1d/d" "Ontem",
    mkOpt "now-2d/d" "now-2d/d" "Anteontem",
    mkOpt "now-7d/d" "now-7d/d" "Este dia na semana passada",
    mkOpt "now-1w/w" "now-1w/w" "Semana anterior",
    mkOpt "now-1M/M" "now-1M/M" "Mês anterior",
    mkOpt "now-1Q/fQ" "now-1Q/fQ" "Trimestre fiscal anterior",
    mkOpt "now-1y/y" "now-1y/y" "Ano anterior",
    mkOpt "now-1y/fy" "now-1y/fy" "Ano fiscal anterior",
    mkOpt "now-5m" "now" "Últimos 5 minutos",
    mkOpt "now-15m" "now" "Últimos 15 minutos",
    mkOpt "now-30m" "now" "Últimos 30 minutos",
    mkOpt "now-1h" "now" "Última 1 hora",
    mkOpt "now-3h" "now" "Últimas 3 horas",
    mkOpt "now-6h" "now" "Últimas 6 horas",
    mkOpt "now-12h" "now" "Últimas 12 horas",
    mkOpt "now-24h" "now" "Últimas 24 horas",
    mkOpt "now-2d" "now" "Últimos 2 dias",
    mkOpt "now-7d" "now" "Últimos 7 dias",
    mkOpt "now-30d" "now" "Últimos 30 dias",
    mkOpt "now-90d" "now" "Últimos 90 dias",
    mkOpt "now-6M" "now" "Últimos 6 meses",
    mkOpt "now-1y" "now" "Último 1 ano",
    mkOpt "now-2y" "now" "Últimos 2 anos",
    mkOpt "now-5y" "now" "Últimos 5 anos",
    mkOpt "now/fQ" "now" "Este trimestre fiscal até agora",
    mkOpt "now/fQ" "now/fQ" "Este trimestre fiscal",
    mkOpt "now/fy" "now" "Este ano fiscal até agora",
    mkOpt "now/fy" "now/fy" "Este ano fiscal" ]

/-- The hidden (future-looking) preset catalog `hiddenRangeOptions`. -/
def hiddenRangeOptions : List TimeOption :=
  [ mkOpt "now" "now+1m" "Próximo minuto",
    mkOpt "now" "now+5m" "Próximos 5 minutos",
    mkOpt "now" "now+15m" "Próximos 15 minutos",
    mkOpt "now" "now+30m" "Próximos 30 minutos",
    mkOpt "now" "now+1h" "Próxima hora",
    mkOpt "now" "now+3h" "Próximas 3 horas",
    mkOpt "now" "now+6h" "Próximas 6 horas",
    mkOpt "now" "now+12h" "Próximas 12 horas",
    mkOpt "now" "now+24h" "Próximas 24 horas",
    mkOpt "now" "now+2d" "Próximos 2 dias",
    mkOpt "now" "now+7d" "Próximos 7 dias",
    mkOpt "now" "now+30d" "Próximos 30 dias",
    mkOpt "now" "now+90d" "Próximos 90 dias",
    mkOpt "now" "now+6M" "Próximos 6 meses",
    mkOpt "now" "now+1y" "Próximo ano",
    mkOpt "now" "now+2y" "Próximos 2 anos",
    mkOpt "now" "now+5y" "Próximos 5 anos" ]

/-- Index key of a preset: `frame.from + ' to ' + frame.to`. -/
def rangeKey (o : TimeOption) : Str := o.from_ ++ str " to " ++ o.to_

/-- Lookup in `rangeIndex`, which is built by assigning every preset (visible
then hidden) under its key; the fold keeps the last assignment, as a JS object
does. -/
def rangeIndexLookup (k : Str) : Option TimeOption :=
  (rangeOptions ++ hiddenRangeOptions).foldl
    (fun acc o => if rangeKey o = k then some o else acc) none

/-- Normalisation step of `describeTextRange`: when the expression does not
contain `now`, prepend `now-` (past) or `now` (future, leading `+`). -/
def dtrNormalize (expr : Str) : Str :=
  if occurs (str "now") expr = false then
    (if listStartsWith (str "+") expr then str "now" else str "now-") ++ expr
  else expr

/-- The regex `/^now([-+])(\d+)(\w)/`: anchored at the start, `now`, a sign,
a greedy digit run, then one word character.  Because `\w` includes digits,
when the character after the maximal digit run is not a word character the
engine backtracks one digit, which then serves as the `\w`; this needs the
run to have length at least two. -/
def nowPatExec (s : Str) : Option (Char × Str × Char) :=
  match s with
  | 'n' :: 'o' :: 'w' :: c :: rest =>
    if c = '-' || c = '+' then
      let ds := rest.takeWhile isDigitCh
      let r2 := rest.dropWhile isDigitCh
      if ds = [] then none
      else
        match r2 with
        | u :: _ =>
          if isWordCh u then some (c, ds, u)
          else if 2 ≤ ds.length then some (c, ds.dropLast, ds.getLastD ' ')
          else none
        | [] =>
          if 2 ≤ ds.length then some (c, ds.dropLast, ds.getLastD ' ')
          else none
    else none
  | _ => none

/-- `describeTextRange`: preset lookup on `"{expr} to now"`, then the
`now±N<unit>` pattern with label synthesis, else the invalid literal
fallback. -/
def describeTextRange (expr0 : Str) : TimeOption :=
  let isLast := !(listStartsWith (str "+") expr0)
  let expr := dtrNormalize expr0
  match rangeIndexLookup (expr ++ str " to now") with
  | some opt => opt
  | none =>
    let opt : TimeOption :=
      if isLast then ⟨expr, str "now", [], none, false⟩
      else ⟨str "now", expr, [], none, false⟩
    match nowPatExec expr with
    | some (_, ds, u) =>
      let amount := digitsToNat ds
      match spans u with
      | some spanDisplay =>
        let d0 := (if isLast then str "Last " else str "Next ") ++
          natToStr amount ++ str " " ++ spanDisplay
        let d1 := if 1 < amount then d0 ++ str "s" else d0
        -- `opt.section = span.section`: every `spans` entry lacks `section`.
        { opt with display := d1, sectionNum := none }
      | none => opt
    | none =>
      { opt with display := opt.from_ ++ str " to " ++ opt.to_, invalid := true }

/-- `isValidTimeSpan`: `$`/`+$` variables are always valid, otherwise the
described option must not carry the invalid flag. -/
def isValidTimeSpan (value : Str) : Bool :=
  if listStartsWith (str "$") value || listStartsWith (str "+$") value then true
  else !(describeTextRange value).invalid

/-! ### Numeric helpers mirroring the JavaScript runtime -/

/-- JS truncation toward zero (used by the `%` operator). -/
def jsTrunc (q : ℚ) : Int := if 0 ≤ q then ⌊q⌋ else ⌈q⌉

/-- The JS `%` operator on numbers: truncated remainder, sign of the
dividend. -/
def jsMod (a b : ℚ) : ℚ := a - b * jsTrunc (a / b)

/-- `Number(x.toFixed())`: round to the nearest integer, ties toward
positive infinity. -/
def jsToFixed0 (q : ℚ) : Int := ⌊q + 1 / 2⌋

/-- `Number(str)` on a decimal literal body (after an optional sign): a digit
run, optionally a point and a fractional digit run, nothing else; at least
one digit overall. -/
def numBody? (s : Str) : Option ℚ :=
  let d := s.takeWhile isDigitCh
  let r := s.dropWhile isDigitCh
  match r with
  | [] => if d = [] then none else some (digitsToNat d)
  | c :: r2 =>
    if c = '.' then
      let f := r2.takeWhile isDigitCh
      if r2.dropWhile isDigitCh ≠ [] then none
      else if d = [] && f = [] then none
      else some ((digitsToNat d : ℚ) + (digitsToNat f : ℚ) / (10 : ℚ) ^ f.length)
    else none

/-- Model of the JS `Number` string conversion over the decimal grammar:
trimmed whitespace, empty means `0`, optional sign, decimal body; anything
else is NaN (`none`).  (Hex, exponent and `Infinity` forms never arise for
the interval strings in scope.) -/
def jsStrNum? (s : Str) : Option ℚ :=
  let t := (((s.dropWhile isJsSpace).reverse).dropWhile isJsSpace).reverse
  match t with
  | [] => some 0
  | c :: rest =>
    if c = '-' then (numBody? rest).map (fun q => -q)
    else if c = '+' then numBody? rest
    else numBody? (c :: rest)

/-- Truthiness of `Number(str)`: a number that is neither `0` nor NaN. -/
def jsNumberTruthy (s : Str) : Bool :=
  match jsStrNum? s with
  | some v => decide (v ≠ 0)
  | none => false

/-- Leading digit run of `parseInt`: `none` is NaN. -/
def leadDigits (s : Str) : Option Nat :=
  let d := s.takeWhile isDigitCh
  if d = [] then none else some (digitsToNat d)

/-- `parseInt(str, 10)`: skip whitespace, optional sign, leading digits;
`none` is NaN. -/
def jsParseInt (s : Str) : Option Int :=
  match s.dropWhile isJsSpace with
  | [] => none
  | c :: rest =>
    if c = '-' then (leadDigits rest).map (fun n => -(n : Int))
    else if c = '+' then (leadDigits rest).map (fun n => (n : Int))
    else (leadDigits (c :: rest)).map (fun n => (n : Int))

/-! ### Duration formatters -/

/-- `secondsToHms`: single largest unit, by floor division over successive
truncated remainders; the millisecond count is taken from the original
seconds value. -/
def secondsToHms (seconds : ℚ) : Str :=
  let numYears := ⌊seconds / 31536000⌋
  if numYears ≠ 0 then intToStr numYears ++ str "y"
  else
    let numDays := ⌊jsMod seconds 31536000 / 86400⌋
    if numDays ≠ 0 then intToStr numDays ++ str "d"
    else
      let numHours := ⌊jsMod (jsMod seconds 31536000) 86400 / 3600⌋
      if numHours ≠ 0 then intToStr numHours ++ str "h"
      else
        let numMinutes := ⌊jsMod (jsMod (jsMod seconds 31536000) 86400) 3600 / 60⌋
        if numMinutes ≠ 0 then intToStr numMinutes ++ str "m"
        else
          let numSeconds := ⌊jsMod (jsMod (jsMod (jsMod seconds 31536000) 86400) 3600) 60⌋
          if numSeconds ≠ 0 then intToStr numSeconds ++ str "s"
          else
            let numMilliseconds := ⌊seconds * 1000⌋
            if numMilliseconds ≠ 0 then intToStr numMilliseconds ++ str "ms"
            else str "less than a millisecond"

/-- `msRangeToTimeString`: round the millisecond span to whole seconds, split
into h / min / sec, join the non-zero parts with spaces through the source's
two conditional-space assignments, fall back to a literal when empty. -/
def msRangeToTimeString (rangeMs : ℚ) : Str :=
  let rangeSec : Int := jsToFixed0 (rangeMs / 1000)
  let h := Int.fdiv rangeSec 3600
  let m := Int.fdiv rangeSec 60 - h * 60
  let s := Int.tmod rangeSec 60
  let formattedH := if h ≠ 0 then intToStr h ++ str "h" else []
  let formattedM := if m ≠ 0 then intToStr m ++ str "min" else []
  let formattedS := if s ≠ 0 then intToStr s ++ str "sec" else []
  let formattedH2 :=
    if formattedH ≠ [] ∧ formattedM ≠ [] then formattedH ++ str " " else formattedH
  let formattedM2 :=
    if (formattedM ≠ [] ∨ formattedH2 ≠ []) ∧ formattedS ≠ [] then formattedM ++ str " "
    else formattedM
  let res := formattedH2 ++ formattedM2 ++ formattedS
  if res = [] then str "less than 1sec" else res

/-! ### Interval parsing (`describeInterval` and friends) -/

/-- The `intervals_in_seconds` unit table. -/
def intervalsInSeconds (u : Str) : Option ℚ :=
  if u = str "y" then some 31536000
  else if u = str "M" then some 2592000
  else if u = str "w" then some 604800
  else if u = str "d" then some 86400
  else if u = str "h" then some 3600
  else if u = str "m" then some 60
  else if u = str "s" then some 1
  else if u = str "ms" then some (1 / 1000)
  else none

/-- Single-character alternatives of the unit group `[Mwdhmsy]`. -/
def unitCh (c : Char) : Bool :=
  c = 'M' || c = 'w' || c = 'd' || c = 'h' || c = 'm' || c = 's' || c = 'y'

/-- The unit group `(ms|[Mwdhmsy])` at the given position: the alternation
tries `ms` first. -/
def matchUnit : Str → Option Str
  | [] => none
  | c :: rest =>
    if c = 'm' ∧ rest.head? = some 's' then some (str "ms")
    else if unitCh c then some [c]
    else none

/-- One anchored attempt of `/(-?\d+(?:\.\d+)?)(ms|[Mwdhmsy])/` at the start
of `s`, returning the two capture groups (number, unit).  Backtracking inside
the digit runs can never rescue a failed unit match (the unit would have to
be a digit or the decimal point), so the greedy runs are final. -/
def matchAt (s : Str) : Option (Str × Str) :=
  let sign : Str := if s.head? = some '-' then str "-" else []
  let s1 : Str := if s.head? = some '-' then s.tail else s
  let ds := s1.takeWhile isDigitCh
  let r := s1.dropWhile isDigitCh
  if ds = [] then none
  else if r.head? = some '.' then
    let fs := r.tail.takeWhile isDigitCh
    if fs = [] then none
    else (matchUnit (r.tail.dropWhile isDigitCh)).map (fun u => (sign ++ ds ++ '.' :: fs, u))
  else (matchUnit r).map (fun u => (sign ++ ds, u))

/-- Unanchored search of `interval_regex`: leftmost matching start wins, as
with `String.prototype.match`. -/
def intervalRegexSearch : Str → Option (Str × Str)
  | [] => none
  | c :: rest =>
    match matchAt (c :: rest) with
    | some m => some m
    | none => intervalRegexSearch rest

/-- Result record of `describeInterval`; `count` is `parseInt`'s result,
`none` standing for NaN. -/
structure IntervalInfo where
  sec : ℚ
  type : Str
  count : Option Int
deriving DecidableEq, Repr

/-- First error message of `describeInterval` (unit list in table order). -/
def invalidIntervalMsg : Str :=
  str "Invalid interval string, has to be either unit-less or end with one of the following units: \"y, M, w, d, h, m, s, ms\""

/-- Second (defensive) error message of `describeInterval`. -/
def describeIntervalFailedMsg : Str :=
  str "describeInterval failed: invalid interval string"

/-- `describeInterval`: truthy `Number` means plain seconds (`sec` is the
table's `s` entry, `1`); otherwise the regex must match and its unit is
looked up in the table. -/
def describeInterval (s : Str) : Except Str IntervalInfo :=
  if jsNumberTruthy s then Except.ok ⟨1, str "s", jsParseInt s⟩
  else
    match intervalRegexSearch s with
    | none => Except.error invalidIntervalMsg
    | some (numStr, unit) =>
      match intervalsInSeconds unit with
      | none => Except.error describeIntervalFailedMsg
      | some sec => Except.ok ⟨sec, unit, jsParseInt numStr⟩

/-- `intervalToSeconds` (`info.sec * info.count`; NaN propagates). -/
def intervalToSeconds (s : Str) : Except Str (Option ℚ) :=
  (describeInterval s).map (fun i => i.count.map (fun c => i.sec * c))

/-- `intervalToMs` (`info.sec * 1000 * info.count`; NaN propagates). -/
def intervalToMs (s : Str) : Except Str (Option ℚ) :=
  (describeInterval s).map (fun i => i.count.map (fun c => i.sec * 1000 * c))

/-! ### Interval rounding and calculation -/

/-- `roundInterval`: the ordered cascade of exclusive upper bounds from the
source's `switch (true)`. -/
def roundInterval (interval : ℚ) : ℚ :=
  if interval < 10 then 1
  else if interval < 15 then 10
  else if interval < 35 then 20
  else if interval < 75 then 50
  else if interval < 150 then 100
  else if interval < 350 then 200
  else if interval < 750 then 500
  else if interval < 1500 then 1000
  else if interval < 3500 then 2000
  else if interval < 7500 then 5000
  else if interval < 12500 then 10000
  else if interval < 17500 then 15000
  else if interval < 25000 then 20000
  else if interval < 45000 then 30000
  else if interval < 90000 then 60000
  else if interval < 210000 then 120000
  else if interval < 450000 then 300000
  else if interval < 750000 then 600000
  else if interval < 1050000 then 900000
  else if interval < 1500000 then 1200000
  else if interval < 2700000 then 1800000
  else if interval < 5400000 then 3600000
  else if interval < 9000000 then 7200000
  else if interval < 16200000 then 10800000
  else if interval < 32400000 then 21600000
  else if interval < 86400000 then 43200000
  else if interval < 604800000 then 86400000
  else if interval < 1814400000 then 604800000
  else if interval < 3628800000 then 2592000000
  else 31536000000

/-- The threshold/value ladder of `roundInterval`, in source order. -/
def roundingBuckets : List (ℚ × ℚ) :=
  [ (10, 1), (15, 10), (35, 20), (75, 50), (150, 100), (350, 200),
    (750, 500), (1500, 1000), (3500, 2000), (7500, 5000), (12500, 10000),
    (17500, 15000), (25000, 20000), (45000, 30000), (90000, 60000),
    (210000, 120000), (450000, 300000), (750000, 600000), (1050000, 900000),
    (1500000, 1200000), (2700000, 1800000), (5400000, 3600000),
    (9000000, 7200000), (16200000, 10800000), (32400000, 21600000),
    (86400000, 43200000), (604800000, 86400000), (1814400000, 604800000),
    (3628800000, 2592000000) ]

/-- Spec-side reference definition: first-match-wins lookup over the
ascending threshold ladder, defaulting to the largest bucket (one year). -/
def specRoundInterval (d : ℚ) : ℚ :=
  match roundingBuckets.find? (fun p => decide (d < p.1)) with
  | some p => p.2
  | none => 31536000000

/-- `TimeRange` with both endpoints resolved to absolute instants; a
`DateTime` is embedded as its `valueOf()`, rational milliseconds since the
epoch.  (The `raw` field plays no part in the functions in scope.) -/
structure TimeRange where
  from_ : ℚ
  to_ : ℚ
deriving DecidableEq, Repr

/-- `IntervalValues`: chosen bucket size and its label. -/
structure IntervalValues where
  intervalMs : ℚ
  interval : Str
deriving DecidableEq, Repr

/-- `calculateInterval`: raw interval `(to - from) / resolution`, rounded,
then raised to the parsed low limit (default one millisecond); a NaN low
limit (`none`) never exceeds the interval, as in JS. -/
def calculateInterval (range : TimeRange) (resolution : ℚ)
    (lowLimitInterval : Option Str) : Except Str IntervalValues :=
  let lowLimit : Except Str (Option ℚ) :=
    match lowLimitInterval with
    | none => Except.ok (some 1)
    | some s => intervalToMs s
  match lowLimit with
  | Except.error e => Except.error e
  | Except.ok lowLimitMs =>
    let intervalMs := roundInterval ((range.to_ - range.from_) / resolution)
    let intervalMs2 :=
      match lowLimitMs with
      | some l => if intervalMs < l then l else intervalMs
      | none => intervalMs
    Except.ok ⟨intervalMs2, secondsToHms (intervalMs2 / 1000)⟩

/-! ### Absolute/relative range conversion -/

/-- `RelativeTimeRange`: integer offsets in seconds before "now". -/
structure RelativeTimeRange where
  from_ : Int
  to_ : Int
deriving DecidableEq, Repr

/-- Moment's `unix()`: floored seconds of the millisecond instant. -/
def unixOf (ms : ℚ) : Int := ⌊ms / 1000⌋

/-- `timeRangeToRelative`: offsets are differences of floored unix seconds. -/
def timeRangeToRelative (timeRange : TimeRange) (now : ℚ) : RelativeTimeRange :=
  ⟨unixOf now - unixOf timeRange.from_, unixOf now - unixOf timeRange.to_⟩

/-- `relativeToTimeRange`: subtract the offsets (in seconds) from `now`; a
`to` offset of exactly `0` yields `now` itself. -/
def relativeToTimeRange (rel : RelativeTimeRange) (now : ℚ) : TimeRange :=
  ⟨now - (rel.from_ : ℚ) * 1000,
    if rel.to_ = 0 then now else now - (rel.to_ : ℚ) * 1000⟩

/-! ### Spec-side reference definitions and generic helpers -/

/-- A purely numeric string: non-empty run of decimal digits. -/
def allDigits (s : Str) : Bool := s.all isDigitCh

/-- Generic first-match cascade of exclusive upper bounds: the shape of the
source's `switch (true)`. -/
def iteChain (l : List (ℚ × ℚ)) (dflt : ℚ) (d : ℚ) : ℚ :=
  match l with
  | [] => dflt
  | (t, v) :: rest => if d < t then v else iteChain rest dflt d

/-- Spec-side reference definition: the descending unit ladder of `secondsToHms`,
each count extracted by floor division over the successive truncated
remainders (milliseconds from the original value). -/
def hmsUnits (seconds : ℚ) : List (Int × Str) :=
  [ (⌊seconds / 31536000⌋, str "y"),
    (⌊jsMod seconds 31536000 / 86400⌋, str "d"),
    (⌊jsMod (jsMod seconds 31536000) 86400 / 3600⌋, str "h"),
    (⌊jsMod (jsMod (jsMod seconds 31536000) 86400) 3600 / 60⌋, str "m"),
    (⌊jsMod (jsMod (jsMod (jsMod seconds 31536000) 86400) 3600) 60⌋, str "s"),
    (⌊seconds * 1000⌋, str "ms") ]

/-- Spec-side reference definition: show the single largest applicable unit, the
first with a non-zero count in descending order, else the fallback
literal. -/
def specSecondsToHms (seconds : ℚ) : Str :=
  match (hmsUnits seconds).find? (fun p => decide (p.1 ≠ 0)) with
  | some p => intToStr p.1 ++ p.2
  | none => str "less than a millisecond"

/-- Space-joined concatenation of string parts. -/
def joinWithSpace : List Str → Str
  | [] => []
  | [x] => x
  | x :: y :: xs => x ++ str " " ++ joinWithSpace (y :: xs)

/-- Spec-side reference definition: compose up to three units (h, min, sec) from the
rounded second count, omit zero components, join with spaces, fall back to
the literal when every component is zero. -/
def specMsRangeToTimeString (rangeMs : ℚ) : Str :=
  let rangeSec : Int := jsToFixed0 (rangeMs / 1000)
  let h := Int.fdiv rangeSec 3600
  let m := Int.fdiv rangeSec 60 - h * 60
  let s := Int.tmod rangeSec 60
  let parts : List Str :=
    (if h ≠ 0 then [intToStr h ++ str "h"] else []) ++
    (if m ≠ 0 then [intToStr m ++ str "min"] else []) ++
    (if s ≠ 0 then [intToStr s ++ str "sec"] else [])
  if parts = [] then str "less than 1sec" else joinWithSpace parts

/-! ### Helper lemmas -/

theorem iteChain_eq_find (l : List (ℚ × ℚ)) (dflt d : ℚ) :
    iteChain l dflt d =
      (match l.find? (fun p => decide (d < p.1)) with
       | some p => p.2
       | none => dflt) := by
  induction l with
  | nil => rfl
  | cons p rest ih =>
    obtain ⟨t, v⟩ := p
    by_cases h : d < t
    · simp [iteChain, List.find?, h]
    · simp [iteChain, List.find?, h, ih]

theorem iteChain_default (l : List (ℚ × ℚ)) (dflt d : ℚ)
    (h : ∀ p ∈ l, p.1 ≤ d) : iteChain l dflt d = dflt := by
  induction l with
  | nil => rfl
  | cons p rest ih =>
    obtain ⟨t, v⟩ := p
    have ht : ¬ d < t := not_lt.mpr (h (t, v) (List.mem_cons_self _ _))
    simp only [iteChain, if_neg ht]
    exact ih (fun q hq => h q (List.mem_cons_of_mem _ hq))

theorem iteChain_ge (l : List (ℚ × ℚ)) (dflt d : ℚ)
    (hl : ∀ p ∈ l, 1 ≤ p.2) (hd : 1 ≤ dflt) : 1 ≤ iteChain l dflt d := by
  induction l with
  | nil => exact hd
  | cons p rest ih =>
    obtain ⟨t, v⟩ := p
    by_cases h : d < t
    · simpa [iteChain, if_pos h] using hl (t, v) (List.mem_cons_self _ _)
    · simp only [iteChain, if_neg h]
      exact ih (fun q hq => hl q (List.mem_cons_of_mem _ hq))

theorem roundInterval_eq_chain (d : ℚ) :
    roundInterval d = iteChain roundingBuckets 31536000000 d := rfl

theorem roundingBuckets_thresholds_le :
    ∀ p ∈ roundingBuckets, p.1 ≤ (3628800000 : ℚ) := by
  simp only [roundingBuckets, List.forall_mem_cons, List.forall_mem_nil]
  norm_num

theorem roundingBuckets_values_ge : ∀ p ∈ roundingBuckets, (1 : ℚ) ≤ p.2 := by
  simp only [roundingBuckets, List.forall_mem_cons, List.forall_mem_nil]
  norm_num

theorem roundInterval_ge_one (d : ℚ) : 1 ≤ roundInterval d := by
  rw [roundInterval_eq_chain]
  exact iteChain_ge _ _ _ roundingBuckets_values_ge (by norm_num)

theorem digit_not_space (c : Char) (h : isDigitCh c = true) : isJsSpace c = false := by
  rcases eq_or_ne c ' ' with rfl | h1
  · exact absurd h (by decide)
  rcases eq_or_ne c '\t' with rfl | h2
  · exact absurd h (by decide)
  rcases eq_or_ne c '\n' with rfl | h3
  · exact absurd h (by decide)
  rcases eq_or_ne c '\r' with rfl | h4
  · exact absurd h (by decide)
  simp [isJsSpace, h1, h2, h3, h4]

theorem digit_ne_dash (c : Char) (h : isDigitCh c = true) : c ≠ '-' := by
  intro hEq
  subst hEq
  exact absurd h (by decide)

theorem digit_ne_plus (c : Char) (h : isDigitCh c = true) : c ≠ '+' := by
  intro hEq
  subst hEq
  exact absurd h (by decide)

theorem allDigits_cons (c : Char) (t : Str) (h : allDigits (c :: t) = true) :
    isDigitCh c = true ∧ allDigits t = true := by
  simpa [allDigits] using h

theorem allDigits_mem (s : Str) (h : allDigits s = true) :
    ∀ x ∈ s, isDigitCh x = true := by
  simpa [allDigits, List.all_eq_true] using h

theorem allDigits_dropWhile_space (s : Str) (h : allDigits s = true) :
    s.dropWhile isJsSpace = s := by
  cases s with
  | nil => rfl
  | cons c t =>
    have hc := (allDigits_cons c t h).1
    rw [List.dropWhile_cons_of_neg]
    simp [digit_not_space c hc]

theorem allDigits_reverse (s : Str) : allDigits s.reverse = allDigits s := by
  simp [allDigits]

theorem trim_allDigits (s : Str) (h : allDigits s = true) :
    (((s.dropWhile isJsSpace).reverse).dropWhile isJsSpace).reverse = s := by
  rw [allDigits_dropWhile_space s h,
    allDigits_dropWhile_space s.reverse (by rw [allDigits_reverse]; exact h),
    List.reverse_reverse]

theorem allDigits_takeWhile_digit (s : Str) (h : allDigits s = true) :
    s.takeWhile isDigitCh = s :=
  List.takeWhile_eq_self_iff.mpr (allDigits_mem s h)

theorem allDigits_dropWhile_digit (s : Str) (h : allDigits s = true) :
    s.dropWhile isDigitCh = [] :=
  List.dropWhile_eq_nil_iff.mpr (allDigits_mem s h)

theorem numBody_allDigits (s : Str) (hne : s ≠ []) (h : allDigits s = true) :
    numBody? s = some ((digitsToNat s : ℚ)) := by
  unfold numBody?
  rw [allDigits_takeWhile_digit s h, allDigits_dropWhile_digit s h]
  simp [hne]

theorem jsStrNum_allDigits (s : Str) (hne : s ≠ []) (h : allDigits s = true) :
    jsStrNum? s = some ((digitsToNat s : ℚ)) := by
  unfold jsStrNum?
  rw [trim_allDigits s h]
  cases s with
  | nil => exact absurd rfl hne
  | cons c t =>
    have hc := (allDigits_cons c t h).1
    simp [digit_ne_dash c hc, digit_ne_plus c hc, numBody_allDigits (c :: t) hne h]

theorem jsNumberTruthy_allDigits (s : Str) (hne : s ≠ []) (h : allDigits s = true)
    (hnz : digitsToNat s ≠ 0) : jsNumberTruthy s = true := by
  unfold jsNumberTruthy
  rw [jsStrNum_allDigits s hne h]
  simp [hnz]

theorem jsParseInt_allDigits (s : Str) (hne : s ≠ []) (h : allDigits s = true) :
    jsParseInt s = some ((digitsToNat s : Int)) := by
  unfold jsParseInt leadDigits
  rw [allDigits_dropWhile_space s h]
  cases s with
  | nil => exact absurd rfl hne
  | cons c t =>
    have hc := (allDigits_cons c t h).1
    simp [digit_ne_dash c hc, digit_ne_plus c hc, allDigits_takeWhile_digit (c :: t) h, hne]

theorem matchUnit_some (r u : Str) (h : matchUnit r = some u) :
    ∃ q, intervalsInSeconds u = some q := by
  cases r with
  | nil => simp [matchUnit] at h
  | cons c rest =>
    rw [show matchUnit (c :: rest) =
        (if c = 'm' ∧ rest.head? = some 's' then some (str "ms")
         else if unitCh c then some [c] else none) from rfl] at h
    split_ifs at h with h1 h2
    · obtain rfl : str "ms" = u := by injection h
      exact ⟨1 / 1000, rfl⟩
    · obtain rfl : [c] = u := by injection h
      unfold unitCh at h2
      simp only [Bool.or_eq_true, decide_eq_true_eq] at h2
      rcases h2 with (((((rfl | rfl) | rfl) | rfl) | rfl) | rfl) | rfl
      · exact ⟨2592000, rfl⟩
      · exact ⟨604800, rfl⟩
      · exact ⟨86400, rfl⟩
      · exact ⟨3600, rfl⟩
      · exact ⟨60, rfl⟩
      · exact ⟨1, rfl⟩
      · exact ⟨31536000, rfl⟩

theorem matchAt_unit (s n u : Str) (h : matchAt s = some (n, u)) :
    ∃ q, intervalsInSeconds u = some q := by
  simp only [matchAt] at h
  split_ifs at h
  all_goals
    obtain ⟨u', hU, hEq⟩ := Option.map_eq_some'.mp h
  all_goals
    cases hEq
  all_goals
    exact matchUnit_some _ _ hU

theorem intervalRegexSearch_unit (s : Str) :
    ∀ n u : Str, intervalRegexSearch s = some (n, u) →
      ∃ q, intervalsInSeconds u = some q := by
  induction s with
  | nil => intro n u h; simp [intervalRegexSearch] at h
  | cons c rest ih =>
    intro n u h
    unfold intervalRegexSearch at h
    rcases hM : matchAt (c :: rest) with _ | m
    · rw [hM] at h
      exact ih n u h
    · rw [hM] at h
      obtain ⟨n', u'⟩ := m
      simp only [Option.some.injEq, Prod.mk.injEq] at h
      obtain ⟨-, rfl⟩ := h
      exact matchAt_unit _ _ _ hM

/-! ### Claim theorems -/

/-- C2: `roundInterval` is a total pure function returning, for every
millisecond input `d`, the canonical value of the first comparison
`d < threshold` that holds in the fixed ascending threshold ladder (first
match wins); an input exactly equal to a threshold falls into the following
comparison's bucket; and any input not below the last threshold
(3628800000 ms) returns the largest bucket, 31536000000 ms (one year). -/
theorem C2_roundInterval_cascade :
    (∀ d : ℚ, roundInterval d = specRoundInterval d) ∧
    (∀ i : Fin roundingBuckets.length,
      roundInterval (roundingBuckets.get i).1 =
        (match roundingBuckets.get? (i.1 + 1) with
         | some p => p.2
         | none => 31536000000)) ∧
    (∀ d : ℚ, 3628800000 ≤ d → roundInterval d = 31536000000) := by
  refine ⟨?_, ?_, ?_⟩
  · intro d
    rw [roundInterval_eq_chain, iteChain_eq_find]
    rfl
  · decide
  · intro d hd
    rw [roundInterval_eq_chain]
    exact iteChain_default _ _ _
      (fun p hp => le_trans (roundingBuckets_thresholds_le p hp) hd)

/-- Witness for C2: a concrete input beyond the last threshold lands in the
one-year bucket. -/
theorem C2_roundInterval_cascade_witness :
    (3628800000 : ℚ) ≤ 4000000000 ∧ roundInterval 4000000000 = 31536000000 :=
  ⟨by norm_num, C2_roundInterval_cascade.2.2 4000000000 (by norm_num)⟩

/-- C1 counterexample: with `now` at 1500 ms and both endpoints at 0 ms, the
relative offsets are the floored 1 s, and converting back lands on 500 ms,
not 0 ms — the round-trip does not recover the instants exactly. -/
theorem C1_roundtrip_counterexample :
    ¬ ((relativeToTimeRange (timeRangeToRelative ⟨0, 0⟩ 1500) 1500).from_ = (0 : ℚ) ∧
       (relativeToTimeRange (timeRangeToRelative ⟨0, 0⟩ 1500) 1500).to_ = (0 : ℚ)) := by
  have h1 : ⌊(1500 : ℚ) / 1000⌋ = 1 := by norm_num
  have h0 : ⌊(0 : ℚ) / 1000⌋ = 0 := by norm_num
  simp only [relativeToTimeRange, timeRangeToRelative, unixOf, h1, h0]
  norm_num

/-- C1 (amended): the round-trip
`relativeToTimeRange (timeRangeToRelative tr now) now` recovers `tr`'s from
and to instants exactly whenever each endpoint differs from `now` by a whole
number of seconds (`unix()` floors to seconds, so sub-second misalignment is
lost). -/
theorem C1_roundtrip_amended (tr : TimeRange) (now : ℚ)
    (hf : ∃ k : ℤ, now - tr.from_ = 1000 * k)
    (ht : ∃ k : ℤ, now - tr.to_ = 1000 * k) :
    (relativeToTimeRange (timeRangeToRelative tr now) now).from_ = tr.from_ ∧
    (relativeToTimeRange (timeRangeToRelative tr now) now).to_ = tr.to_ := by
  obtain ⟨k, hk⟩ := hf
  obtain ⟨j, hj⟩ := ht
  have hfrom : unixOf now - unixOf tr.from_ = k := by
    unfold unixOf
    have hdiv : now / 1000 = tr.from_ / 1000 + (k : ℚ) := by
      field_simp
      linarith
    rw [hdiv, Int.floor_add_int]
    ring
  have hto : unixOf now - unixOf tr.to_ = j := by
    unfold unixOf
    have hdiv : now / 1000 = tr.to_ / 1000 + (j : ℚ) := by
      field_simp
      linarith
    rw [hdiv, Int.floor_add_int]
    ring
  constructor
  · simp only [relativeToTimeRange, timeRangeToRelative]
    rw [hfrom]
    linarith
  · simp only [relativeToTimeRange, timeRangeToRelative]
    rw [hto]
    by_cases hz : j = 0
    · subst hz
      rw [if_pos rfl]
      have : now - tr.to_ = 0 := by
        rw [hj]
        push_cast
        ring
      linarith
    · rw [if_neg hz]
      linarith

/-- Witness for C1 (amended) at whole-second instants, exercising both the
non-zero `from` offset and the special-cased zero `to` offset. -/
theorem C1_roundtrip_amended_witness :
    (∃ k : ℤ, (5000 : ℚ) - 2000 = 1000 * k) ∧
    (∃ k : ℤ, (5000 : ℚ) - 5000 = 1000 * k) ∧
    (relativeToTimeRange (timeRangeToRelative ⟨2000, 5000⟩ 5000) 5000).from_ = 2000 ∧
    (relativeToTimeRange (timeRangeToRelative ⟨2000, 5000⟩ 5000) 5000).to_ = 5000 := by
  have h := C1_roundtrip_amended ⟨2000, 5000⟩ 5000 ⟨3, by norm_num⟩ ⟨0, by norm_num⟩
  exact ⟨⟨3, by norm_num⟩, ⟨0, by norm_num⟩, h.1, h.2⟩

/-- C4 counterexample: `describeTextRange("now-3d/d")` does not fall back to
the invalid literal — the unanchored tail of `/^now([-+])(\d+)(\w)/` accepts
`now-3d` and produces a pattern-derived label with the invalid flag
unset. -/
theorem C4_describeTextRange_counterexample :
    ¬ ((describeTextRange (str "now-3d/d")).invalid = true ∧
       (describeTextRange (str "now-3d/d")).display = str "now-3d/d to now") := by
  decide

/-- C4 (amended): `describeTextRange("6h")` returns the catalog preset whose
display is "Últimas 6 horas" (exact lookup of "now-6h to now");
`describeTextRange("now-3d/d")`, with no preset match, still matches the
`now±N<unit>` pattern (the regex ignores the "/d" tail) and yields the
non-invalid pattern-derived display "Last 3 dias"; an expression matching
neither, such as "now/h", falls back to a result marked invalid whose
display is the literal "now/h to now". -/
theorem C4_describeTextRange_amended :
    describeTextRange (str "6h") =
      ⟨str "now-6h", str "now", str "Últimas 6 horas", none, false⟩ ∧
    describeTextRange (str "now-3d/d") =
      ⟨str "now-3d/d", str "now", str "Last 3 dias", none, false⟩ ∧
    describeTextRange (str "now/h") =
      ⟨str "now/h", str "now", str "now/h to now", none, true⟩ := by
  refine ⟨by decide, by decide, by decide⟩

/-- Helper for C6: the source's if-chain equals the spec's first-non-zero
scan over the descending unit ladder. -/
theorem secondsToHms_eq_spec (s : ℚ) : secondsToHms s = specSecondsToHms s := by
  unfold secondsToHms specSecondsToHms hmsUnits
  by_cases h1 : ⌊s / 31536000⌋ = 0
  · by_cases h2 : ⌊jsMod s 31536000 / 86400⌋ = 0
    · by_cases h3 : ⌊jsMod (jsMod s 31536000) 86400 / 3600⌋ = 0
      · by_cases h4 : ⌊jsMod (jsMod (jsMod s 31536000) 86400) 3600 / 60⌋ = 0
        · by_cases h5 : ⌊jsMod (jsMod (jsMod (jsMod s 31536000) 86400) 3600) 60⌋ = 0
          · by_cases h6 : ⌊s * 1000⌋ = 0
            · simp [List.find?, h1, h2, h3, h4, h5, h6]
            · simp [List.find?, h1, h2, h3, h4, h5, h6]
          · simp [List.find?, h1, h2, h3, h4, h5]
        · simp [List.find?, h1, h2, h3, h4]
      · simp [List.find?, h1, h2, h3]
    · simp [List.find?, h1, h2]
  · simp [List.find?, h1]

/-- C6: for every duration in seconds, `secondsToHms` shows the single
largest applicable unit among y, d, h, m, s, ms, the count obtained by
successive floor-division remainder extraction in descending unit order, and
returns "less than a millisecond" when every unit count floors to zero; in
particular `secondsToHms(3661) = "1h"` and
`secondsToHms(0.0001) = "less than a millisecond"`. -/
theorem C6_secondsToHms_largest_unit :
    (∀ s : ℚ, secondsToHms s = specSecondsToHms s) ∧
    secondsToHms 3661 = str "1h" ∧
    secondsToHms (1 / 10000) = str "less than a millisecond" := by
  refine ⟨secondsToHms_eq_spec, ?_, ?_⟩
  · norm_num [secondsToHms, jsMod, jsTrunc]
    rfl
  · norm_num [secondsToHms, jsMod, jsTrunc]

/-- C8: `msRangeToTimeString` converts a millisecond duration, rounded to
whole seconds, into a composite string of up to three space-joined units
(h, min, sec), omitting zero components, and returns the literal
"less than 1sec" when all three components are zero; in particular
`msRangeToTimeString(5400000) = "1h 30min"`. -/
theorem C8_msRangeToTimeString_composite :
    (∀ ms : ℚ, msRangeToTimeString ms = specMsRangeToTimeString ms) ∧
    msRangeToTimeString 5400000 = str "1h 30min" := by
  constructor
  · intro ms
    unfold msRangeToTimeString specMsRangeToTimeString
    by_cases hh : Int.fdiv (jsToFixed0 (ms / 1000)) 3600 = 0 <;>
      by_cases hm : Int.fdiv (jsToFixed0 (ms / 1000)) 60 -
          Int.fdiv (jsToFixed0 (ms / 1000)) 3600 * 60 = 0 <;>
        by_cases hs : Int.tmod (jsToFixed0 (ms / 1000)) 60 = 0 <;>
          simp [hh, hm, hs, joinWithSpace, List.append_eq_nil, str, List.append_assoc]
    all_goals
      by_cases h60 : Int.fdiv (jsToFixed0 (ms / 1000)) 60 = 0 <;>
        simp [h60, joinWithSpace, List.append_eq_nil, str, List.append_assoc]
  · norm_num [msRangeToTimeString, jsToFixed0]
    rfl

/-- C7: the defensive second error branch of `describeInterval` is
unreachable — whenever `interval_regex` matches, the captured unit group is
a key of `intervals_in_seconds`, so the lookup never misses and the
"describeInterval failed" error is never thrown. -/
theorem C7_second_error_unreachable :
    (∀ s n u : Str, intervalRegexSearch s = some (n, u) →
      ∃ q, intervalsInSeconds u = some q) ∧
    (∀ s : Str, describeInterval s ≠ Except.error describeIntervalFailedMsg) := by
  constructor
  · exact fun s => intervalRegexSearch_unit s
  · intro s h
    unfold describeInterval at h
    by_cases ht : jsNumberTruthy s
    · rw [if_pos ht] at h
      exact Except.noConfusion h
    · rw [if_neg ht] at h
      rcases hR : intervalRegexSearch s with _ | p
      · rw [hR] at h
        exact absurd (Except.error.inj h) (by decide)
      · obtain ⟨n, u⟩ := p
        obtain ⟨q, hq⟩ := intervalRegexSearch_unit s n u hR
        rw [hR] at h
        simp only [hq] at h
        exact Except.noConfusion h

/-- Witness for C7: the regex match on "5m" captures unit "m", present in
the unit table, and "x" (no match at all) never reaches the defensive
error. -/
theorem C7_second_error_unreachable_witness :
    intervalRegexSearch (str "5m") = some (str "5", str "m") ∧
    (∃ q, intervalsInSeconds (str "m") = some q) ∧
    describeInterval (str "x") ≠ Except.error describeIntervalFailedMsg :=
  ⟨rfl, C7_second_error_unreachable.1 (str "5m") (str "5") (str "m") rfl,
    C7_second_error_unreachable.2 (str "x")⟩

/-- C3 counterexample: "0" is a purely numeric string, yet
`describeInterval("0")` throws (JS `Number("0")` is falsy, so the numeric
branch is skipped and the unit-less string fails the regex) instead of
returning `{sec: 1, type: 's', count: 0}`. -/
theorem C3_describeInterval_counterexample :
    allDigits (str "0") = true ∧
    describeInterval (str "0") = Except.error invalidIntervalMsg ∧
    describeInterval (str "0") ≠ Except.ok ⟨1, str "s", some 0⟩ :=
  ⟨rfl, rfl, fun h => Except.noConfusion ((rfl :
    describeInterval (str "0") = Except.error invalidIntervalMsg) ▸ h)⟩

/-- C3 (amended): `describeInterval` returns `{sec: 1, type: 's', count: n}`
for every purely numeric input string with non-zero value `n` (a zero-valued
numeric string such as "0" is falsy for `Number` and therefore throws);
returns the unit-table entry for every string the interval regex matches;
and throws the error naming the allowed unit suffixes exactly when the
string is neither truthy-numeric nor regex-matching; in particular
`describeInterval("5m") = {sec: 60, type: 'm', count: 5}`,
`describeInterval("90") = {sec: 1, type: 's', count: 90}`, and
`describeInterval("bogus")` throws. -/
theorem C3_describeInterval_amended :
    (∀ s : Str, s ≠ [] → allDigits s = true → digitsToNat s ≠ 0 →
      describeInterval s = Except.ok ⟨1, str "s", some ((digitsToNat s : Int))⟩) ∧
    (∀ s n u : Str, jsNumberTruthy s = false → intervalRegexSearch s = some (n, u) →
      ∃ q, intervalsInSeconds u = some q ∧
        describeInterval s = Except.ok ⟨q, u, jsParseInt n⟩) ∧
    (∀ s : Str, describeInterval s = Except.error invalidIntervalMsg ↔
      (jsNumberTruthy s = false ∧ intervalRegexSearch s = none)) ∧
    describeInterval (str "5m") = Except.ok ⟨60, str "m", some 5⟩ ∧
    describeInterval (str "90") = Except.ok ⟨1, str "s", some 90⟩ ∧
    describeInterval (str "bogus") = Except.error invalidIntervalMsg := by
  refine ⟨?_, ?_, ?_, rfl, rfl, rfl⟩
  · intro s h1 h2 h3
    unfold describeInterval
    rw [if_pos (jsNumberTruthy_allDigits s h1 h2 h3), jsParseInt_allDigits s h1 h2]
  · intro s n u hF hR
    obtain ⟨q, hq⟩ := intervalRegexSearch_unit s n u hR
    refine ⟨q, hq, ?_⟩
    simp [describeInterval, hF, hR, hq]
  · intro s
    constructor
    · intro h
      by_cases ht : jsNumberTruthy s
      · simp [describeInterval, ht] at h
      · rcases hR : intervalRegexSearch s with _ | p
        · exact ⟨by simpa using ht, rfl⟩
        · obtain ⟨n, u⟩ := p
          obtain ⟨q, hq⟩ := intervalRegexSearch_unit s n u hR
          simp [describeInterval, ht, hR, hq] at h
    · rintro ⟨hF, hR⟩
      simp [describeInterval, hF, hR]

/-- Witness for C3 (amended): concrete instances for the numeric branch
("7"), the regex branch ("2h"), and the error characterisation ("bogus"). -/
theorem C3_describeInterval_amended_witness :
    describeInterval (str "7") = Except.ok ⟨1, str "s", some 7⟩ ∧
    (∃ q, intervalsInSeconds (str "h") = some q ∧
      describeInterval (str "2h") = Except.ok ⟨q, str "h", jsParseInt (str "2")⟩) ∧
    describeInterval (str "bogus") = Except.error invalidIntervalMsg :=
  ⟨C3_describeInterval_amended.1 (str "7") (by decide) (by decide) (by decide),
    C3_describeInterval_amended.2.1 (str "2h") (str "2") (str "h") (by rfl) (by rfl),
    (C3_describeInterval_amended.2.2.1 (str "bogus")).mpr ⟨by rfl, by rfl⟩⟩

theorem calculateInterval_none (r : TimeRange) (res : ℚ) :
    calculateInterval r res none =
      Except.ok ⟨roundInterval ((r.to_ - r.from_) / res),
        secondsToHms (roundInterval ((r.to_ - r.from_) / res) / 1000)⟩ := by
  simp only [calculateInterval]
  rw [if_neg (not_lt.mpr (roundInterval_ge_one ((r.to_ - r.from_) / res)))]

theorem calculateInterval_low (r : TimeRange) (res : ℚ) (ls : Str) (v : ℚ)
    (hv : intervalToMs ls = Except.ok (some v)) :
    calculateInterval r res (some ls) =
      Except.ok ⟨max v (roundInterval ((r.to_ - r.from_) / res)),
        secondsToHms (max v (roundInterval ((r.to_ - r.from_) / res)) / 1000)⟩ := by
  simp only [calculateInterval, hv]
  rcases le_or_lt v (roundInterval ((r.to_ - r.from_) / res)) with h | h
  · rw [if_neg (not_lt.mpr h), max_eq_right h]
  · rw [if_pos h, max_eq_left (le_of_lt h)]

/-- C5: `calculateInterval` computes the raw interval
`(to - from) / resolution` in milliseconds, rounds it with `roundInterval`,
clamps the result below by the parsed low-limit interval (default 1 ms,
which never binds since every bucket is at least 1 ms), and returns the
millisecond value together with its `secondsToHms` label; in particular
`calculateInterval({from: 0, to: 3600000}, 100)` turns the raw 36000 ms into
`intervalMs = 30000`. -/
theorem C5_calculateInterval :
    (∀ (r : TimeRange) (res : ℚ),
      calculateInterval r res none =
        Except.ok ⟨roundInterval ((r.to_ - r.from_) / res),
          secondsToHms (roundInterval ((r.to_ - r.from_) / res) / 1000)⟩) ∧
    (∀ (r : TimeRange) (res : ℚ) (ls : Str) (v : ℚ),
      intervalToMs ls = Except.ok (some v) →
      calculateInterval r res (some ls) =
        Except.ok ⟨max v (roundInterval ((r.to_ - r.from_) / res)),
          secondsToHms (max v (roundInterval ((r.to_ - r.from_) / res)) / 1000)⟩) ∧
    ((3600000 : ℚ) - 0) / 100 = 36000 ∧
    roundInterval 36000 = 30000 ∧
    calculateInterval ⟨0, 3600000⟩ 100 none = Except.ok ⟨30000, str "30s"⟩ := by
  refine ⟨calculateInterval_none, calculateInterval_low, by norm_num, by decide, ?_⟩
  rw [calculateInterval_none ⟨0, 3600000⟩ 100]
  have hraw : (((⟨0, 3600000⟩ : TimeRange).to_ - (⟨0, 3600000⟩ : TimeRange).from_) / 100)
      = (36000 : ℚ) := by norm_num
  rw [hraw]
  have hr : roundInterval (36000 : ℚ) = 30000 := by decide
  rw [hr]
  have hd : (30000 : ℚ) / 1000 = 30 := by norm_num
  rw [hd]
  have hs : secondsToHms 30 = str "30s" := by
    norm_num [secondsToHms, jsMod, jsTrunc]
    rfl
  rw [hs]

/-- Witness for C5: a configured low limit of "1m" (60000 ms) lifts a
1000 ms rounded interval up to the minute bucket. -/
theorem C5_calculateInterval_witness :
    intervalToMs (str "1m") = Except.ok (some 60000) ∧
    calculateInterval ⟨0, 1000⟩ 1 (some (str "1m")) =
      Except.ok ⟨max 60000 (roundInterval ((((⟨0, 1000⟩ : TimeRange)).to_ -
          ((⟨0, 1000⟩ : TimeRange)).from_) / 1)),
        secondsToHms (max 60000 (roundInterval ((((⟨0, 1000⟩ : TimeRange)).to_ -
          ((⟨0, 1000⟩ : TimeRange)).from_) / 1)) / 1000)⟩ := by
  have hv : intervalToMs (str "1m") = Except.ok (some 60000) := by
    have h : describeInterval (str "1m") = Except.ok ⟨60, str "m", some 1⟩ := rfl
    unfold intervalToMs
    rw [h]
    simp only [Except.map, Option.map]
    norm_num
  exact ⟨hv, C5_calculateInterval.2.1 ⟨0, 1000⟩ 1 (str "1m") 60000 hv⟩

theorem foldl_index_keep (l : List TimeOption) (k : Str) (acc : Option TimeOption)
    (h : ∀ p ∈ l, rangeKey p ≠ k) :
    l.foldl (fun acc o => if rangeKey o = k then some o else acc) acc = acc := by
  induction l generalizing acc with
  | nil => rfl
  | cons o rest ih =>
    rw [List.foldl_cons, if_neg (h o (List.mem_cons_self _ _))]
    exact ih acc (fun p hp => h p (List.mem_cons_of_mem _ hp))

theorem rangeIndexLookup_none (k : Str)
    (h : ∀ p ∈ rangeOptions ++ hiddenRangeOptions, rangeKey p ≠ k) :
    rangeIndexLookup k = none :=
  foldl_index_keep _ k none h

theorem catalog_keys_not_plus :
    ∀ p ∈ rangeOptions ++ hiddenRangeOptions,
      listStartsWith (str "+") (rangeKey p) = false ∧
      listStartsWith (str "now+") (rangeKey p) = false := by decide

theorem catalog_display_head :
    ∀ p ∈ rangeOptions ++ hiddenRangeOptions,
      p.display.head? ≠ none ∧ p.display.head? ≠ some 'N' ∧ p.display.head? ≠ some 'n' := by
  decide

theorem startsWith_plus_query (t x : Str) :
    listStartsWith (str "+") (('+' :: t) ++ x) = true := by
  rw [listStartsWith, show str "+" = ['+'] from rfl]
  simp [List.isPrefixOf]

theorem startsWith_nowplus_query (t x : Str) :
    listStartsWith (str "now+") ((str "now" ++ '+' :: t) ++ x) = true := by
  rw [listStartsWith, show str "now+" = ['n', 'o', 'w', '+'] from rfl,
    show str "now" ++ '+' :: t = 'n' :: 'o' :: 'w' :: '+' :: t from rfl]
  simp [List.isPrefixOf]

theorem plus_lookup_none (t : Str) :
    rangeIndexLookup (dtrNormalize ('+' :: t) ++ str " to now") = none := by
  apply rangeIndexLookup_none
  intro p hp hk
  unfold dtrNormalize at hk
  have hsw : listStartsWith (str "+") ('+' :: t) = true := by
    rw [listStartsWith, show str "+" = ['+'] from rfl]
    simp [List.isPrefixOf]
  by_cases hnow : occurs (str "now") ('+' :: t) = false
  · rw [if_pos hnow, if_pos hsw] at hk
    have h1 := (catalog_keys_not_plus p hp).2
    rw [hk, startsWith_nowplus_query] at h1
    exact Bool.noConfusion h1
  · rw [if_neg hnow] at hk
    have h1 := (catalog_keys_not_plus p hp).1
    rw [hk, startsWith_plus_query] at h1
    exact Bool.noConfusion h1

theorem plus_describe_shape (t : Str) :
    (describeTextRange ('+' :: t)).display.head? = none ∨
    (describeTextRange ('+' :: t)).display.head? = some 'N' ∨
    (describeTextRange ('+' :: t)).display.head? = some 'n' := by
  have hsw : listStartsWith (str "+") ('+' :: t) = true := by
    rw [listStartsWith, show str "+" = ['+'] from rfl]
    simp [List.isPrefixOf]
  simp only [describeTextRange, hsw, Bool.not_true, Bool.false_eq_true, if_false,
    plus_lookup_none t]
  rcases hnp : nowPatExec (dtrNormalize ('+' :: t)) with _ | ⟨c, ds, u⟩
  · right; right
    rw [show str "now" = 'n' :: 'o' :: 'w' :: ([] : Str) from rfl]
    simp
  · rcases hsp : spans u with _ | sp
    · left
      simp [hsp]
    · right; left
      by_cases ha : 1 < digitsToNat ds
      · simp [hsp, ha, show str "Next " = 'N' :: str "ext " from rfl]
      · simp [hsp, ha, show str "Next " = 'N' :: str "ext " from rfl]

/-- C9: for every expression beginning with "+", `describeTextRange` never
returns a catalog preset — the lookup key is the normalized expression
followed by " to now" while future presets are keyed "now to now+offset",
so the index lookup always misses and the returned option (whose display
starts with "Next ", is empty, or is the literal starting with "now") never
equals any preset; in particular `describeTextRange("+5m")` is the
pattern-derived `{from: 'now', to: 'now+5m'}` with display
"Next 5 minutos", not the preset display "Próximos 5 minutos". -/
theorem C9_plus_never_preset :
    (∀ e : Str, listStartsWith (str "+") e = true →
      rangeIndexLookup (dtrNormalize e ++ str " to now") = none ∧
      ∀ p ∈ rangeOptions ++ hiddenRangeOptions, describeTextRange e ≠ p) ∧
    describeTextRange (str "+5m") =
      ⟨str "now", str "now+5m", str "Next 5 minutos", none, false⟩ := by
  constructor
  · intro e he
    obtain ⟨t, rfl⟩ : ∃ t, e = '+' :: t := by
      cases e with
      | nil => exact absurd he (by decide)
      | cons c t =>
        rw [listStartsWith, show str "+" = ['+'] from rfl] at he
        simp [List.isPrefixOf] at he
        exact ⟨t, by rw [he]⟩
    refine ⟨plus_lookup_none t, ?_⟩
    intro p hp hEq
    have hd := catalog_display_head p hp
    have hshape := plus_describe_shape t
    rw [hEq] at hshape
    rcases hshape with h | h | h
    · exact hd.1 h
    · exact hd.2.1 h
    · exact hd.2.2 h
  · decide

/-- Witness for C9: for "+5m" the index lookup misses and the result differs
from the future preset holding the same from/to pair. -/
theorem C9_plus_never_preset_witness :
    rangeIndexLookup (dtrNormalize (str "+5m") ++ str " to now") = none ∧
    mkOpt "now" "now+5m" "Próximos 5 minutos" ∈ rangeOptions ++ hiddenRangeOptions ∧
    describeTextRange (str "+5m") ≠ mkOpt "now" "now+5m" "Próximos 5 minutos" :=
  ⟨(C9_plus_never_preset.1 (str "+5m") (by decide)).1, by decide,
    (C9_plus_never_preset.1 (str "+5m") (by decide)).2
      (mkOpt "now" "now+5m" "Próximos 5 minutos") (by decide)⟩

/-- C10: when the normalized expression matches `now[+-]<digits><word>` but
the captured unit is not a key of the spans table (and no preset matches),
`describeTextRange` returns an option whose display is the empty string and
whose invalid flag is unset, so `isValidTimeSpan` accepts the string despite
it producing no label; "now-5q" is such a string. -/
theorem C10_missing_span_unit :
    (describeTextRange (str "now-5q") = ⟨str "now-5q", str "now", [], none, false⟩ ∧
     isValidTimeSpan (str "now-5q") = true) ∧
    (∀ (e : Str) (c : Char) (ds : Str) (u : Char),
      nowPatExec (dtrNormalize e) = some (c, ds, u) → spans u = none →
      rangeIndexLookup (dtrNormalize e ++ str " to now") = none →
      (describeTextRange e).display = [] ∧ (describeTextRange e).invalid = false ∧
      isValidTimeSpan e = true) := by
  constructor
  · exact ⟨by decide, by decide⟩
  · intro e c ds u hpat hspan hlook
    have hdt : describeTextRange e =
        (if !(listStartsWith (str "+") e) then
          (⟨dtrNormalize e, str "now", [], none, false⟩ : TimeOption)
         else ⟨str "now", dtrNormalize e, [], none, false⟩) := by
      simp only [describeTextRange, hlook, hpat, hspan]
    have hdisp : (describeTextRange e).display = [] := by
      rw [hdt]
      by_cases hL : listStartsWith (str "+") e <;> simp [hL]
    have hinv : (describeTextRange e).invalid = false := by
      rw [hdt]
      by_cases hL : listStartsWith (str "+") e <;> simp [hL]
    refine ⟨hdisp, hinv, ?_⟩
    unfold isValidTimeSpan
    by_cases hD : (listStartsWith (str "$") e || listStartsWith (str "+$") e) = true
    · rw [if_pos hD]
    · rw [if_neg hD, hinv]
      rfl

/-- Witness for C10: the general statement instantiated at "now-5q", whose
unit 'q' is absent from the spans table. -/
theorem C10_missing_span_unit_witness :
    nowPatExec (dtrNormalize (str "now-5q")) = some ('-', str "5", 'q') ∧
    spans 'q' = none ∧
    (describeTextRange (str "now-5q")).display = [] ∧
    (describeTextRange (str "now-5q")).invalid = false ∧
    isValidTimeSpan (str "now-5q") = true := by
  have h := C10_missing_span_unit.2 (str "now-5q") '-' (str "5") 'q'
    (by decide) (by decide) (by decide)
  exact ⟨by decide, by decide, h.1, h.2.1, h.2.2⟩

end Rangeutil
